import Mathlib

/-!
Verification of the differential-evolution optimizer core (`de.py`:
`DiffEvol` / `DiffEvolResult`) against its specification.

Shallow embedding conventions:
* machine floats are modelled by `ℚ`;
* the numpy global pseudo-random stream is modelled by an arbitrary function
  `Draw : Nat → Nat → Nat` from (seed, stream position) to the raw word drawn
  at that position, together with a `GlobalRng = (seed, position)` state that
  `np.random.seed` resets; theorems quantify over the `Draw` function, so they
  hold for every underlying generator;
* `numpy.random.random()` values are the raw word reduced to a 53-bit
  fraction (hence always in `[0,1)`), `numpy.random.randint(n)` is the raw
  word reduced mod `n` (hence always in `[0,n)`);
* the unbounded rejection-sampling `while` loops of `DiffEvol.__call__` are
  given a fuel parameter; a run that exhausts its fuel returns
  `RunOutcome.diverges`, and genuine non-termination is expressed as
  "`diverges` for every fuel".
-/

/-- Model of the numpy global pseudo-random stream: an arbitrary function from
(seed, position in the stream) to the raw word drawn at that position. -/
abbrev Draw := Nat → Nat → Nat

/-- State of the numpy global generator: the seed in effect and the position of
the next word to be consumed. -/
abbrev GlobalRng := Nat × Nat

/-- Model of `np.random.seed(s)`: the global stream is reset to the start of the
stream determined by `s` alone, discarding whatever state was in effect. -/
def npSeed (s : Nat) : GlobalRng := (s, 0)

/-- Model of one `numpy.random.random()` value: the raw word reduced to a 53-bit
mantissa fraction, a uniform float in `[0,1)`. -/
def uniFloat (draw : Draw) (s p : Nat) : ℚ := ((draw s p % 2 ^ 53 : Nat) : ℚ) / (2 ^ 53 : ℚ)

/-- Model of `numpy.random.randint(n)`: an integer draw in `[0, n)`. -/
def randInt (draw : Draw) (s p n : Nat) : Nat := draw s p % n

/-- `DiffEvolResult` (de.py lines 100-109): the population matrix, the fitness
vector and the best-individual index `minidx` (`None` until the run sets it).
The source aliases `pop`/`population` and `fit`/`fitness` to the same arrays;
the model keeps one field for each. -/
structure DiffEvolResult where
  population : List (List ℚ)
  fitness : List ℚ
  minidx : Option Nat
deriving DecidableEq

/-- `DiffEvolResult.__init__` (de.py lines 104-108):
`population = bl + random([npop, npar]) * bw`, `fitness = zeros(npop)`,
`minidx = None`.  `bl` and `bw` are the one row repeated in the `npop × npar`
tiles `DiffEvol.__init__` builds (`tile(bounds[:,0],[npop,1])` and
`tile(bounds[:,1]-bounds[:,0],[npop,1])`), so they are passed as single rows
here.  `random([npop, npar])` consumes `npop * npar` stream words in row-major
order starting at position `pos`. -/
def DiffEvolResult.initStore (draw : Draw) (s pos npop npar : Nat) (bl bw : List ℚ) :
    DiffEvolResult where
  population := (List.range npop).map fun i => (List.range npar).map fun j =>
    bl.getD j 0 + uniFloat draw s (pos + (i * npar + j)) * bw.getD j 0
  fitness := List.replicate npop 0
  minidx := none

/-- The `DiffEvol` engine object with exactly the attributes `__init__`
(de.py lines 17-55) assigns: `minfun`, `bounds`, `n_gen`, `n_pop`, `n_parm`,
`bl`, `bw`, `seed`, `F`, `C`, `verbose`, `result`.  In particular no `rank`
attribute is ever assigned, on any code path. -/
structure DiffEvol where
  minfun : List ℚ → ℚ
  bounds : List (ℚ × ℚ)
  n_gen : Nat
  n_pop : Nat
  n_parm : Nat
  bl : List ℚ
  bw : List ℚ
  seed : Nat
  F : ℚ
  C : ℚ
  verbose : Bool
  result : DiffEvolResult

/-- `DiffEvol.__init__` (de.py lines 17-55).  It stores its arguments, computes
`n_parm`, `bl`, `bw` from `bounds`, calls `np.random.seed(self.seed)` (which
discards the prior global stream state `g`), and builds
`self.result = DiffEvolResult(npop, n_parm, bl, bw)`, consuming
`npop * n_parm` stream words.  The source contains no validation and no
`raise` statement: every input is accepted and the population store is created
unconditionally; the objective function is stored but never called.  Returns
the engine together with the global stream state after construction. -/
def DiffEvol.init (draw : Draw) (g : GlobalRng) (f : List ℚ → ℚ) (bounds : List (ℚ × ℚ))
    (npop ngen : Nat) (F C : ℚ) (seed : Nat) (verbose : Bool) : DiffEvol × GlobalRng :=
  let nparm := bounds.length
  let bl := bounds.map Prod.fst
  let bw := bounds.map fun b => b.2 - b.1
  let g1 := npSeed seed
  let r := DiffEvolResult.initStore draw g1.1 g1.2 npop nparm bl bw
  ({ minfun := f, bounds := bounds, n_gen := ngen, n_pop := npop, n_parm := nparm,
     bl := bl, bw := bw, seed := seed, F := F, C := C, verbose := verbose, result := r },
   (g1.1, g1.2 + npop * nparm))

/-- Result of a numpy indexing expression as used by the two query methods:
either a scalar, or an array of dimension 1, 2 or 3 (indexing with `None`
inserts a new leading axis instead of raising). -/
inductive NpVal where
  | scalar (x : ℚ)
  | arr1 (xs : List ℚ)
  | arr2 (xss : List (List ℚ))
  | arr3 (xsss : List (List (List ℚ)))
deriving DecidableEq

/-- `DiffEvolResult.get_fitness` (de.py lines 112-114): `return
self.fitness[self.minidx]`.  When `minidx` is an integer this is the scalar
`fitness[minidx]`; when `minidx` is `None`, numpy `None`-indexing inserts a
new leading axis and yields the whole fitness vector with shape `(1, npop)` —
no exception is raised. -/
def DiffEvolResult.get_fitness (r : DiffEvolResult) : NpVal :=
  match r.minidx with
  | some i => .scalar (r.fitness.getD i 0)
  | none => .arr2 [r.fitness]

/-- `DiffEvolResult.get_best_fit` (de.py lines 117-119): `return
self.population[self.minidx,:]`.  When `minidx` is an integer this is the row
`population[minidx]`; when `minidx` is `None` the result is the whole
population with a new leading axis, shape `(1, npop, npar)` — no exception. -/
def DiffEvolResult.get_best_fit (r : DiffEvolResult) : NpVal :=
  match r.minidx with
  | some i => .arr1 (r.population.getD i [])
  | none => .arr3 [r.population]

/-- `np.argmin`: index of the first occurrence of the minimum.  Auxiliary
recursion carrying (rest of list, index of next element, best index so far,
best value so far). -/
def argminAux : List ℚ → Nat → Nat → ℚ → Nat
  | [], _, bi, _ => bi
  | x :: xs, k, bi, bv => if x < bv then argminAux xs (k + 1) k x else argminAux xs (k + 1) bi bv

/-- `np.argmin` on a vector (0 on the empty vector, which numpy instead
rejects; all uses here have `n_pop ≥ 1`). -/
def argmin : List ℚ → Nat
  | [] => 0
  | x :: xs => argminAux xs 1 0 x

/-- State threaded through the generation loop of `DiffEvol.__call__`: the
(single, in-place) population buffer, the fitness vector, the position of the
next word of the global random stream, and the trace of arguments passed to
the objective function so far (most recent last). -/
structure LoopState where
  pop : List (List ℚ)
  fit : List ℚ
  pos : Nat
  trace : List (List ℚ)
deriving DecidableEq

/-- One rejection-sampling `while` loop of the donor selection (de.py lines
70-75): redraw `next pos`, `next (pos+1)`, ... until the drawn value is
accepted, returning the value and the next unused stream position.  The
initial value `t[k] = i` is always rejected by the corresponding guard, so the
loop always draws at least once; `fuel` bounds the number of draws and `none`
means the fuel was exhausted. -/
def sampleUntil (accept : Nat → Bool) (next : Nat → Nat) : Nat → Nat → Option (Nat × Nat)
  | _, 0 => none
  | pos, fuel + 1 =>
    if accept (next pos) then some (next pos, pos + 1)
    else sampleUntil accept next (pos + 1) fuel

/-- The three donor-selection loops of de.py lines 69-75 for target index `i`:
`t[0] ≠ i`, `t[1] ∉ {i, t[0]}`, `t[2] ∉ {i, t[0], t[1]}`, each by rejection
sampling on `next` (which models `randint(n_pop)`). -/
def selectDonors (next : Nat → Nat) (i pos fuel : Nat) : Option (Nat × Nat × Nat × Nat) :=
  match sampleUntil (fun v => v != i) next pos fuel with
  | none => none
  | some (t0, pos1) =>
    match sampleUntil (fun v => v != i && v != t0) next pos1 fuel with
    | none => none
    | some (t1, pos2) =>
      match sampleUntil (fun v => v != i && v != t0 && v != t1) next pos2 fuel with
      | none => none
      | some (t2, pos3) => some (t0, t1, t2, pos3)

/-- Componentwise vector addition (numpy `+` on equal-length rows). -/
def vAdd (a b : List ℚ) : List ℚ := List.zipWith (fun x y => x + y) a b

/-- Componentwise vector subtraction (numpy `-` on equal-length rows). -/
def vSub (a b : List ℚ) : List ℚ := List.zipWith (fun x y => x - y) a b

/-- Scalar times vector (numpy scalar broadcasting). -/
def vSmul (c : ℚ) (a : List ℚ) : List ℚ := a.map (fun x => c * x)

/-- Crossover and forced crossing (de.py lines 79-84):
`crossover = random(n_parm) <= C` (consuming `n_parm` stream floats at
positions `pos .. pos+n_parm-1`), `u = where(crossover, v, x)`,
`ri = randint(n_parm)` (one stream word at `pos+n_parm`), `u[ri] = v[ri]`.
Returns the trial vector, the forced index `ri` and the next stream
position. -/
def buildTrial (draw : Draw) (s : Nat) (C : ℚ) (nparm : Nat) (v x : List ℚ) (pos : Nat) :
    List ℚ × Nat × Nat :=
  let u := (List.range nparm).map fun j =>
    if uniFloat draw s (pos + j) ≤ C then v.getD j 0 else x.getD j 0
  let ri := randInt draw s (pos + nparm) nparm
  (u.set ri (v.getD ri 0), ri, pos + nparm + 1)

/-- The body of the inner loop of `DiffEvol.__call__` (de.py lines 67-91) for
target index `i`: donor selection, mutation
`v = pop[t0] + F * (pop[t1] - pop[t2])`, crossover with forced crossing,
one objective evaluation `ufit = minfun(u)` (recorded in the trace), and
greedy selection: commit `u` and `ufit` to slot `i` iff `ufit < fit[i]`.
All reads and writes go to the single in-place population buffer. -/
def innerStep (draw : Draw) (s : Nat) (f : List ℚ → ℚ) (npop nparm : Nat) (F C : ℚ)
    (fuel : Nat) (st : LoopState) (i : Nat) : Option LoopState :=
  match selectDonors (fun p => randInt draw s p npop) i st.pos fuel with
  | none => none
  | some (t0, t1, t2, pos1) =>
    let v := vAdd (st.pop.getD t0 []) (vSmul F (vSub (st.pop.getD t1 []) (st.pop.getD t2 [])))
    let u := (buildTrial draw s C nparm v (st.pop.getD i []) pos1).1
    let pos2 := (buildTrial draw s C nparm v (st.pop.getD i []) pos1).2.2
    let ufit := f u
    if ufit < st.fit.getD i 0 then
      some { pop := st.pop.set i u, fit := st.fit.set i ufit, pos := pos2,
             trace := st.trace ++ [u] }
    else
      some { st with pos := pos2, trace := st.trace ++ [u] }

/-- One generation of `DiffEvol.__call__`: sweep the target index `i` from `0`
to `n_pop - 1`, performing `innerStep` in place on the single buffer. -/
def sweepGen (draw : Draw) (s : Nat) (f : List ℚ → ℚ) (npop nparm : Nat) (F C : ℚ)
    (fuel : Nat) (st : LoopState) : Option LoopState :=
  (List.range npop).foldlM (innerStep draw s f npop nparm F C fuel) st

/-- Possible outcomes of `DiffEvol.__call__`: a rejection-sampling loop that
exhausted its fuel (`diverges`), the `AttributeError` raised by the verbose
progress line (`attrError`), or normal completion carrying the returned
`DiffEvolResult` and the trace of objective-function arguments. -/
inductive RunOutcome where
  | diverges
  | attrError
  | done (r : DiffEvolResult) (trace : List (List ℚ))
deriving DecidableEq

/-- Whether a run outcome is a normal completion. -/
def RunOutcome.isDone : RunOutcome → Bool
  | .done _ _ => true
  | _ => false

/-- The trace of objective-function call arguments of a completed run
(empty for the other outcomes). -/
def RunOutcome.traceOf : RunOutcome → List (List ℚ)
  | .done _ tr => tr
  | _ => []

/-- The returned store of a completed run (a dummy empty store for the other
outcomes). -/
def RunOutcome.resultOf : RunOutcome → DiffEvolResult
  | .done r _ => r
  | _ => { population := [], fitness := [], minidx := none }

/-- The generation loop of `DiffEvol.__call__` (de.py lines 66-97), counting
the remaining generations: after each generation's sweep, if `verbose` is
set the progress line `sys.stdout.write('... % (self.rank, ...))` is executed;
`self.rank` is an attribute never assigned by the class, so Python raises
`AttributeError` there (modelled by `attrError`).  After the last generation
`minidx` is set to `argmin(fitness)` and the store is returned. -/
def genLoop (draw : Draw) (s : Nat) (f : List ℚ → ℚ) (npop nparm : Nat) (F C : ℚ)
    (verbose : Bool) (fuel : Nat) : Nat → LoopState → RunOutcome
  | 0, st => .done { population := st.pop, fitness := st.fit, minidx := some (argmin st.fit) }
      st.trace
  | ngen + 1, st =>
    match sweepGen draw s f npop nparm F C fuel st with
    | none => .diverges
    | some st1 =>
      if verbose then .attrError
      else genLoop draw s f npop nparm F C verbose fuel ngen st1

/-- `DiffEvol.__call__` (de.py lines 58-97): first evaluate the objective once
for each of the `n_pop` initial individuals (`r.fit[i] = minfun(r.pop[i,:])`),
then run the generation loop.  `g` is the global random stream state at the
time of the call. -/
def DiffEvol.call (draw : Draw) (g : GlobalRng) (de : DiffEvol) (fuel : Nat) : RunOutcome :=
  let fit0 := (List.range de.n_pop).map fun i => de.minfun (de.result.population.getD i [])
  let tr0 := (List.range de.n_pop).map fun i => de.result.population.getD i []
  genLoop draw g.1 de.minfun de.n_pop de.n_parm de.F de.C de.verbose fuel de.n_gen
    { pop := de.result.population, fit := fit0, pos := g.2, trace := tr0 }

/-- One complete execution as the spec's determinism contract describes it:
construct the engine (which seeds the global stream) and immediately invoke
it.  `g` is the global stream state the execution starts from. -/
def constructAndRun (draw : Draw) (g : GlobalRng) (f : List ℚ → ℚ) (bounds : List (ℚ × ℚ))
    (npop ngen : Nat) (F C : ℚ) (seed : Nat) (verbose : Bool) (fuel : Nat) : RunOutcome :=
  let p := DiffEvol.init draw g f bounds npop ngen F C seed verbose
  DiffEvol.call draw p.2 p.1 fuel

/-- Modelled from the spec's words, for comparison with the in-place code: the
body of the inner loop of the "cleaner double-buffered variant" the spec
contrasts with the reference, in which the three donor rows are read from a
`snapshot` of the population taken at the start of the generation, so a later
slot's donor draws never see rows already updated in the same sweep.
Everything else is as in `innerStep`. -/
def innerStepDB (draw : Draw) (s : Nat) (f : List ℚ → ℚ) (npop nparm : Nat) (F C : ℚ)
    (fuel : Nat) (snapshot : List (List ℚ)) (st : LoopState) (i : Nat) : Option LoopState :=
  match selectDonors (fun p => randInt draw s p npop) i st.pos fuel with
  | none => none
  | some (t0, t1, t2, pos1) =>
    let v := vAdd (snapshot.getD t0 []) (vSmul F (vSub (snapshot.getD t1 []) (snapshot.getD t2 [])))
    let u := (buildTrial draw s C nparm v (st.pop.getD i []) pos1).1
    let pos2 := (buildTrial draw s C nparm v (st.pop.getD i []) pos1).2.2
    let ufit := f u
    if ufit < st.fit.getD i 0 then
      some { pop := st.pop.set i u, fit := st.fit.set i ufit, pos := pos2,
             trace := st.trace ++ [u] }
    else
      some { st with pos := pos2, trace := st.trace ++ [u] }

/-- Modelled from the spec's words: one generation of the double-buffered
variant, with the population snapshot taken at the start of the sweep. -/
def sweepGenDB (draw : Draw) (s : Nat) (f : List ℚ → ℚ) (npop nparm : Nat) (F C : ℚ)
    (fuel : Nat) (st : LoopState) : Option LoopState :=
  (List.range npop).foldlM (innerStepDB draw s f npop nparm F C fuel st.pop) st

/-- Modelled from the spec's words: the generation loop of the double-buffered
variant. -/
def genLoopDB (draw : Draw) (s : Nat) (f : List ℚ → ℚ) (npop nparm : Nat) (F C : ℚ)
    (verbose : Bool) (fuel : Nat) : Nat → LoopState → RunOutcome
  | 0, st => .done { population := st.pop, fitness := st.fit, minidx := some (argmin st.fit) }
      st.trace
  | ngen + 1, st =>
    match sweepGenDB draw s f npop nparm F C fuel st with
    | none => .diverges
    | some st1 =>
      if verbose then .attrError
      else genLoopDB draw s f npop nparm F C verbose fuel ngen st1

/-- Modelled from the spec's words: a full run of the double-buffered variant,
for comparison with `DiffEvol.call`. -/
def DiffEvol.callDB (draw : Draw) (g : GlobalRng) (de : DiffEvol) (fuel : Nat) : RunOutcome :=
  let fit0 := (List.range de.n_pop).map fun i => de.minfun (de.result.population.getD i [])
  let tr0 := (List.range de.n_pop).map fun i => de.result.population.getD i []
  genLoopDB draw g.1 de.minfun de.n_pop de.n_parm de.F de.C de.verbose fuel de.n_gen
    { pop := de.result.population, fit := fit0, pos := g.2, trace := tr0 }

/-- A concrete stream function: the raw word at position `p` is `p` itself
(the seed is ignored).  Used for concrete witnesses. -/
def drawId : Draw := fun _ p => p

/-- A concrete objective function: squared distance of the first component
from 1. -/
def fQuad : List ℚ → ℚ := fun v => (v.headD 0 - 1) * (v.headD 0 - 1)

/-- A concrete one-parameter bound list. -/
def bounds01 : List (ℚ × ℚ) := [(0, 1)]

/-- A concrete table of raw stream words for a 4-individual, 1-parameter,
1-generation run: positions 0-3 are the initial-population floats (giving
the population 0, 1/4, 3/4, 1/4), and each block of five further words is one
slot's three donor draws, one crossover float and one forced-crossing index
word. -/
def tableWords : List Nat :=
  [0, 2 ^ 51, 3 * 2 ^ 51, 2 ^ 51,
   1, 2, 3, 0, 0,
   0, 2, 3, 0, 0,
   0, 1, 3, 0, 0,
   0, 1, 2, 0, 0]

/-- The stream whose raw words are `tableWords` (0 past the end; the seed is
ignored). -/
def tableDraw : Draw := fun _ p => tableWords.getD p 0

/-- A concrete engine built from the table stream: 4 individuals, 1 parameter,
1 generation, `F = C = 1/2`, seed 0, verbosity off. -/
def deTable : DiffEvol := (DiffEvol.init tableDraw (0, 0) fQuad bounds01 4 1 (1/2) (1/2) 0 false).1

/-- The same concrete engine with verbosity on. -/
def deTableV : DiffEvol := (DiffEvol.init tableDraw (0, 0) fQuad bounds01 4 1 (1/2) (1/2) 0 true).1

/-- The global stream state right after constructing `deTable`. -/
def gTable : GlobalRng := (DiffEvol.init tableDraw (0, 0) fQuad bounds01 4 1 (1/2) (1/2) 0 false).2


/-- Shorthand for the two table-stream evaluation sets below. -/
theorem range_one : List.range 1 = [0] := rfl

/-- Shorthand for the two table-stream evaluation sets below. -/
theorem range_four : List.range 4 = [0, 1, 2, 3] := rfl

/-- Initial population of the table-stream engine. -/
theorem deTable_pop : deTable.result.population = [[0], [1/4], [3/4], [1/4]] := by
  norm_num [deTable, DiffEvol.init, DiffEvolResult.initStore, npSeed, uniFloat, tableDraw,
    tableWords, bounds01, range_one, range_four, List.getD]

/-- The verbose twin engine has the same initial population. -/
theorem deTableV_pop : deTableV.result.population = [[0], [1/4], [3/4], [1/4]] := by
  norm_num [deTableV, DiffEvol.init, DiffEvolResult.initStore, npSeed, uniFloat, tableDraw,
    tableWords, bounds01, range_one, range_four, List.getD]

/-- Loop state of the table run at the start of the (single) generation. -/
def stT0 : LoopState :=
  { pop := [[0], [1/4], [3/4], [1/4]], fit := [1, 9/16, 1/16, 9/16], pos := 4,
    trace := [[0], [1/4], [3/4], [1/4]] }

/-- Loop state of the table run after target slot 0 (trial 1/2 committed). -/
def stT1 : LoopState :=
  { pop := [[1/2], [1/4], [3/4], [1/4]], fit := [1/4, 9/16, 1/16, 9/16], pos := 9,
    trace := [[0], [1/4], [3/4], [1/4], [1/2]] }

/-- Loop state of the table run after target slot 1 (trial 3/4 committed; its
mutant read the already-updated row 0). -/
def stT2 : LoopState :=
  { pop := [[1/2], [3/4], [3/4], [1/4]], fit := [1/4, 1/16, 1/16, 9/16], pos := 14,
    trace := [[0], [1/4], [3/4], [1/4], [1/2], [3/4]] }

/-- Loop state of the table run after target slot 2 (trial 3/4 rejected). -/
def stT3 : LoopState :=
  { pop := [[1/2], [3/4], [3/4], [1/4]], fit := [1/4, 1/16, 1/16, 9/16], pos := 19,
    trace := [[0], [1/4], [3/4], [1/4], [1/2], [3/4], [3/4]] }

/-- Loop state of the table run after target slot 3 (trial 1/2 committed). -/
def stT4 : LoopState :=
  { pop := [[1/2], [3/4], [3/4], [1/2]], fit := [1/4, 1/16, 1/16, 1/4], pos := 24,
    trace := [[0], [1/4], [3/4], [1/4], [1/2], [3/4], [3/4], [1/2]] }

set_option maxHeartbeats 1000000 in
/-- Table run, slot 0. -/
theorem stepT0 : innerStep tableDraw 0 fQuad 4 1 (1/2) (1/2) 2 stT0 0 = some stT1 := by
  norm_num [stT0, stT1, innerStep, selectDonors, sampleUntil, buildTrial,
    vAdd, vSub, vSmul, uniFloat, randInt, fQuad, tableDraw, tableWords, range_one,
    List.getD, Option.bind]

set_option maxHeartbeats 1000000 in
/-- Table run, slot 1. -/
theorem stepT1 : innerStep tableDraw 0 fQuad 4 1 (1/2) (1/2) 2 stT1 1 = some stT2 := by
  norm_num [stT1, stT2, innerStep, selectDonors, sampleUntil, buildTrial,
    vAdd, vSub, vSmul, uniFloat, randInt, fQuad, tableDraw, tableWords, range_one,
    List.getD, Option.bind]

set_option maxHeartbeats 1000000 in
/-- Table run, slot 2. -/
theorem stepT2 : innerStep tableDraw 0 fQuad 4 1 (1/2) (1/2) 2 stT2 2 = some stT3 := by
  norm_num [stT2, stT3, innerStep, selectDonors, sampleUntil, buildTrial,
    vAdd, vSub, vSmul, uniFloat, randInt, fQuad, tableDraw, tableWords, range_one,
    List.getD, Option.bind]

set_option maxHeartbeats 1000000 in
/-- Table run, slot 3. -/
theorem stepT3 : innerStep tableDraw 0 fQuad 4 1 (1/2) (1/2) 2 stT3 3 = some stT4 := by
  norm_num [stT3, stT4, innerStep, selectDonors, sampleUntil, buildTrial,
    vAdd, vSub, vSmul, uniFloat, randInt, fQuad, tableDraw, tableWords, range_one,
    List.getD, Option.bind]

/-- Reduction of an Option bind on a present value. -/
theorem obind_some {a : Type} {b : Type} (x : a) (f : a → Option b) :
    (some x).bind f = f x := rfl

/-- Table run: the whole first-generation sweep. -/
theorem sweepT : sweepGen tableDraw 0 fQuad 4 1 (1/2) (1/2) 2 stT0 = some stT4 := by
  have h : sweepGen tableDraw 0 fQuad 4 1 (1/2) (1/2) 2 stT0
      = ((innerStep tableDraw 0 fQuad 4 1 (1/2) (1/2) 2 stT0 0).bind fun s =>
          (innerStep tableDraw 0 fQuad 4 1 (1/2) (1/2) 2 s 1).bind fun s =>
            (innerStep tableDraw 0 fQuad 4 1 (1/2) (1/2) 2 s 2).bind fun s =>
              (innerStep tableDraw 0 fQuad 4 1 (1/2) (1/2) 2 s 3).bind fun s =>
                some s) := rfl
  rw [h]
  simp only [stepT0, stepT1, stepT2, stepT3, obind_some]

/-- Double-buffered table run, state after slot 1 (trial 1/4 rejected: the
mutant read the pre-generation snapshot row 0, not the updated one). -/
def stD2 : LoopState :=
  { pop := [[1/2], [1/4], [3/4], [1/4]], fit := [1/4, 9/16, 1/16, 9/16], pos := 14,
    trace := [[0], [1/4], [3/4], [1/4], [1/2], [1/4]] }

/-- Double-buffered table run, state after slot 2 (trial 0 rejected). -/
def stD3 : LoopState :=
  { pop := [[1/2], [1/4], [3/4], [1/4]], fit := [1/4, 9/16, 1/16, 9/16], pos := 19,
    trace := [[0], [1/4], [3/4], [1/4], [1/2], [1/4], [0]] }

/-- Double-buffered table run, state after slot 3 (trial -1/4 rejected). -/
def stD4 : LoopState :=
  { pop := [[1/2], [1/4], [3/4], [1/4]], fit := [1/4, 9/16, 1/16, 9/16], pos := 24,
    trace := [[0], [1/4], [3/4], [1/4], [1/2], [1/4], [0], [-1/4]] }

set_option maxHeartbeats 1000000 in
/-- Double-buffered table run, slot 0 (same donors and outcome as in place). -/
theorem stepD0 : innerStepDB tableDraw 0 fQuad 4 1 (1/2) (1/2) 2 stT0.pop stT0 0 = some stT1 := by
  norm_num [stT0, stT1, innerStepDB, selectDonors, sampleUntil, buildTrial,
    vAdd, vSub, vSmul, uniFloat, randInt, fQuad, tableDraw, tableWords, range_one,
    List.getD, Option.bind]

set_option maxHeartbeats 1000000 in
/-- Double-buffered table run, slot 1. -/
theorem stepD1 : innerStepDB tableDraw 0 fQuad 4 1 (1/2) (1/2) 2 stT0.pop stT1 1 = some stD2 := by
  norm_num [stT0, stT1, stD2, innerStepDB, selectDonors, sampleUntil, buildTrial,
    vAdd, vSub, vSmul, uniFloat, randInt, fQuad, tableDraw, tableWords, range_one,
    List.getD, Option.bind]

set_option maxHeartbeats 1000000 in
/-- Double-buffered table run, slot 2. -/
theorem stepD2 : innerStepDB tableDraw 0 fQuad 4 1 (1/2) (1/2) 2 stT0.pop stD2 2 = some stD3 := by
  norm_num [stT0, stD2, stD3, innerStepDB, selectDonors, sampleUntil, buildTrial,
    vAdd, vSub, vSmul, uniFloat, randInt, fQuad, tableDraw, tableWords, range_one,
    List.getD, Option.bind]

set_option maxHeartbeats 1000000 in
/-- Double-buffered table run, slot 3. -/
theorem stepD3 : innerStepDB tableDraw 0 fQuad 4 1 (1/2) (1/2) 2 stT0.pop stD3 3 = some stD4 := by
  norm_num [stT0, stD3, stD4, innerStepDB, selectDonors, sampleUntil, buildTrial,
    vAdd, vSub, vSmul, uniFloat, randInt, fQuad, tableDraw, tableWords, range_one,
    List.getD, Option.bind]

/-- Double-buffered table run: the whole first-generation sweep. -/
theorem sweepD : sweepGenDB tableDraw 0 fQuad 4 1 (1/2) (1/2) 2 stT0 = some stD4 := by
  have h : sweepGenDB tableDraw 0 fQuad 4 1 (1/2) (1/2) 2 stT0
      = ((innerStepDB tableDraw 0 fQuad 4 1 (1/2) (1/2) 2 stT0.pop stT0 0).bind fun s =>
          (innerStepDB tableDraw 0 fQuad 4 1 (1/2) (1/2) 2 stT0.pop s 1).bind fun s =>
            (innerStepDB tableDraw 0 fQuad 4 1 (1/2) (1/2) 2 stT0.pop s 2).bind fun s =>
              (innerStepDB tableDraw 0 fQuad 4 1 (1/2) (1/2) 2 stT0.pop s 3).bind fun s =>
                some s) := rfl
  rw [h]
  simp only [stepD0, stepD1, stepD2, stepD3, obind_some]

/-- Final store of the in-place table run. -/
def resT : DiffEvolResult :=
  { population := [[1/2], [3/4], [3/4], [1/2]], fitness := [1/4, 1/16, 1/16, 1/4],
    minidx := some 1 }

/-- Final trace of the in-place table run. -/
def trT : List (List ℚ) := [[0], [1/4], [3/4], [1/4], [1/2], [3/4], [3/4], [1/2]]

/-- Final store of the double-buffered table run. -/
def resD : DiffEvolResult :=
  { population := [[1/2], [1/4], [3/4], [1/4]], fitness := [1/4, 9/16, 1/16, 9/16],
    minidx := some 2 }

/-- Final trace of the double-buffered table run. -/
def trD : List (List ℚ) := [[0], [1/4], [3/4], [1/4], [1/2], [1/4], [0], [-1/4]]

/-- Best index of the in-place final fitness vector. -/
theorem argminT : argmin stT4.fit = 1 := by
  norm_num [stT4, argmin, argminAux]

/-- Best index of the double-buffered final fitness vector. -/
theorem argminD : argmin stD4.fit = 2 := by
  norm_num [stD4, argmin, argminAux]

/-- Generation loop of the in-place table run. -/
theorem genT : genLoop tableDraw 0 fQuad 4 1 (1/2) (1/2) false 2 1 stT0
    = RunOutcome.done resT trT := by
  show (match sweepGen tableDraw 0 fQuad 4 1 (1/2) (1/2) 2 stT0 with
        | none => RunOutcome.diverges
        | some st1 =>
          if false then RunOutcome.attrError
          else genLoop tableDraw 0 fQuad 4 1 (1/2) (1/2) false 2 0 st1)
      = RunOutcome.done resT trT
  rw [sweepT]
  show RunOutcome.done
      { population := stT4.pop, fitness := stT4.fit, minidx := some (argmin stT4.fit) }
      stT4.trace = RunOutcome.done resT trT
  rw [argminT]
  rfl

/-- Generation loop of the verbose table run: the progress line's
`AttributeError`. -/
theorem genTV : genLoop tableDraw 0 fQuad 4 1 (1/2) (1/2) true 2 1 stT0
    = RunOutcome.attrError := by
  show (match sweepGen tableDraw 0 fQuad 4 1 (1/2) (1/2) 2 stT0 with
        | none => RunOutcome.diverges
        | some st1 =>
          if true then RunOutcome.attrError
          else genLoop tableDraw 0 fQuad 4 1 (1/2) (1/2) true 2 0 st1)
      = RunOutcome.attrError
  rw [sweepT]
  rfl

/-- Generation loop of the double-buffered table run. -/
theorem genD : genLoopDB tableDraw 0 fQuad 4 1 (1/2) (1/2) false 2 1 stT0
    = RunOutcome.done resD trD := by
  show (match sweepGenDB tableDraw 0 fQuad 4 1 (1/2) (1/2) 2 stT0 with
        | none => RunOutcome.diverges
        | some st1 =>
          if false then RunOutcome.attrError
          else genLoopDB tableDraw 0 fQuad 4 1 (1/2) (1/2) false 2 0 st1)
      = RunOutcome.done resD trD
  rw [sweepD]
  show RunOutcome.done
      { population := stD4.pop, fitness := stD4.fit, minidx := some (argmin stD4.fit) }
      stD4.trace = RunOutcome.done resD trD
  rw [argminD]
  rfl

/-- The loop state `DiffEvol.call` starts from, on the table engine, is
`stT0`. -/
theorem startT :
    ({ pop := deTable.result.population,
       fit := (List.range 4).map fun i => fQuad (deTable.result.population.getD i []),
       pos := 4,
       trace := (List.range 4).map fun i => deTable.result.population.getD i [] } : LoopState)
      = stT0 := by
  rw [deTable_pop]
  norm_num [stT0, fQuad, range_four, List.getD]

/-- The loop state the verbose table engine starts from is also `stT0`. -/
theorem startTV :
    ({ pop := deTableV.result.population,
       fit := (List.range 4).map fun i => fQuad (deTableV.result.population.getD i []),
       pos := 4,
       trace := (List.range 4).map fun i => deTableV.result.population.getD i [] } : LoopState)
      = stT0 := by
  rw [deTableV_pop]
  norm_num [stT0, fQuad, range_four, List.getD]

/-- Full in-place table run. -/
theorem callT : DiffEvol.call tableDraw gTable deTable 2 = RunOutcome.done resT trT := by
  have h : DiffEvol.call tableDraw gTable deTable 2
      = genLoop tableDraw 0 fQuad 4 1 (1/2) (1/2) false 2 1
          { pop := deTable.result.population,
            fit := (List.range 4).map fun i => fQuad (deTable.result.population.getD i []),
            pos := 4,
            trace := (List.range 4).map fun i => deTable.result.population.getD i [] } := rfl
  rw [h, startT, genT]

/-- Full verbose table run: it raises instead of returning. -/
theorem callTV : DiffEvol.call tableDraw gTable deTableV 2 = RunOutcome.attrError := by
  have h : DiffEvol.call tableDraw gTable deTableV 2
      = genLoop tableDraw 0 fQuad 4 1 (1/2) (1/2) true 2 1
          { pop := deTableV.result.population,
            fit := (List.range 4).map fun i => fQuad (deTableV.result.population.getD i []),
            pos := 4,
            trace := (List.range 4).map fun i => deTableV.result.population.getD i [] } := rfl
  rw [h, startTV, genTV]

/-- Full double-buffered table run. -/
theorem callD : DiffEvol.callDB tableDraw gTable deTable 2 = RunOutcome.done resD trD := by
  have h : DiffEvol.callDB tableDraw gTable deTable 2
      = genLoopDB tableDraw 0 fQuad 4 1 (1/2) (1/2) false 2 1
          { pop := deTable.result.population,
            fit := (List.range 4).map fun i => fQuad (deTable.result.population.getD i []),
            pos := 4,
            trace := (List.range 4).map fun i => deTable.result.population.getD i [] } := rfl
  rw [h, startT, genD]

/-- Claim C1, counterexample: constructing with every validation rule of the
claim violated at once — bounds `[(5,1)]` with `lower >= upper`, `n_pop = 3`,
`n_gen = 0`, `F = -1`, `C = 2` — raises nothing: `DiffEvol.__init__` contains
no validation and no `raise` statement, construction returns normally and the
population store (run state) has been created, with 3 sampled individuals and
an unset best index. -/
theorem claim1_counterexample :
    (DiffEvol.init drawId (7, 11) fQuad [((5 : ℚ), (1 : ℚ))] 3 0 (-1) 2 0 true).1.result.population.length = 3 ∧
    (DiffEvol.init drawId (7, 11) fQuad [((5 : ℚ), (1 : ℚ))] 3 0 (-1) 2 0 true).1.result.minidx = none :=
  ⟨rfl, rfl⟩

/-- Claim C1, amended: construction performs no input validation and never
raises — any bounds (including `lower >= upper`), any `n_pop`, `F`, `C` and
`n_gen` are accepted — and the population store (run state) is created
unconditionally at construction: `n_pop` rows of `bounds.length` components,
a zero fitness vector and an unset best index.  The created store does not
depend on the objective function (which is never evaluated at construction)
nor on the pre-existing global stream state. -/
theorem claim1_amended (draw : Draw) (g g' : GlobalRng) (f f' : List ℚ → ℚ)
    (bounds : List (ℚ × ℚ)) (npop ngen : Nat) (F C : ℚ) (seed : Nat) (verbose : Bool)
    (i : Nat) (hi : i < npop) :
    (DiffEvol.init draw g f bounds npop ngen F C seed verbose).1.result.population.length = npop ∧
    ((DiffEvol.init draw g f bounds npop ngen F C seed verbose).1.result.population.getD i []).length
      = bounds.length ∧
    (DiffEvol.init draw g f bounds npop ngen F C seed verbose).1.result.fitness
      = List.replicate npop 0 ∧
    (DiffEvol.init draw g f bounds npop ngen F C seed verbose).1.result.minidx = none ∧
    (DiffEvol.init draw g f bounds npop ngen F C seed verbose).1.result
      = (DiffEvol.init draw g' f' bounds npop ngen F C seed verbose).1.result := by
  refine ⟨by simp [DiffEvol.init, DiffEvolResult.initStore], ?_, rfl, rfl, rfl⟩
  simp [DiffEvol.init, DiffEvolResult.initStore, List.getD, List.getElem?_map,
    List.getElem?_range, hi]

/-- Claim C1, amended, witness at the invalid input of the counterexample:
`bounds = [(5,1)]`, `n_pop = 3`, `F = -1`, `C = 2`, slot 0. -/
theorem claim1_amended_witness :
    (DiffEvol.init drawId (7, 11) fQuad [((5 : ℚ), (1 : ℚ))] 3 9 (-1) 2 0 true).1.result.population.length = 3 ∧
    ((DiffEvol.init drawId (7, 11) fQuad [((5 : ℚ), (1 : ℚ))] 3 9 (-1) 2 0 true).1.result.population.getD 0 []).length
      = [((5 : ℚ), (1 : ℚ))].length ∧
    (DiffEvol.init drawId (7, 11) fQuad [((5 : ℚ), (1 : ℚ))] 3 9 (-1) 2 0 true).1.result.fitness
      = List.replicate 3 0 ∧
    (DiffEvol.init drawId (7, 11) fQuad [((5 : ℚ), (1 : ℚ))] 3 9 (-1) 2 0 true).1.result.minidx = none ∧
    (DiffEvol.init drawId (7, 11) fQuad [((5 : ℚ), (1 : ℚ))] 3 9 (-1) 2 0 true).1.result
      = (DiffEvol.init drawId (0, 0) (fun v => v.headD 0) [((5 : ℚ), (1 : ℚ))] 3 9 (-1) 2 0 true).1.result :=
  claim1_amended drawId (7, 11) (0, 0) fQuad (fun v => v.headD 0) [((5 : ℚ), (1 : ℚ))] 3 9
    (-1) 2 0 true 0 (by decide)

/-- Claim C2: on a validly constructed engine (4 individuals, 1 parameter,
1 generation, `F = C = 1/2`, seed 0), the run with verbosity enabled does not
return the population store: the progress line reads the never-assigned
attribute `self.rank` and raises `AttributeError` after the first
generation's sweep.  The identical engine with verbosity disabled completes
all generations and returns the store, with the best index set to the argmin
of the final fitness vector.  So enabled verbosity is not advisory-only: it
prevents the returned result, contradicting the claim — the code bug. -/
theorem claim2_code_bug :
    DiffEvol.call tableDraw gTable deTableV 2 = RunOutcome.attrError ∧
    DiffEvol.call tableDraw gTable deTable 2 = RunOutcome.done resT trT ∧
    resT.minidx = some (argmin resT.fitness) :=
  ⟨callTV, callT, by
    show some 1 = some (argmin stT4.fit)
    rw [argminT]⟩

/-- Claim C3, counterexample: on the freshly constructed, never-run engine
`deTable`, `minidx` is unset, and both query methods return values instead of
failing: `get_fitness` returns the whole zero-filled fitness vector under a
new leading axis (numpy `fitness[None]`), and `get_best_fit` the whole
population under a new leading axis — no `NotEvaluatedError` is raised (no
such exception exists anywhere in the code). -/
theorem claim3_counterexample :
    deTable.result.minidx = none ∧
    deTable.result.get_fitness = NpVal.arr2 [[0, 0, 0, 0]] ∧
    deTable.result.get_best_fit = NpVal.arr3 [[[0], [1/4], [3/4], [1/4]]] :=
  ⟨rfl, rfl, by
    show NpVal.arr3 [deTable.result.population] = NpVal.arr3 [[[0], [1/4], [3/4], [1/4]]]
    rw [deTable_pop]⟩

/-- Claim C3, amended: on every freshly constructed, never-run engine's
result, `minidx` is `None` and the queries do not raise: `get_fitness`
returns the zero-filled fitness vector with a new leading axis (shape
`(1, n_pop)`, numpy `None`-indexing) and `get_best_fit` returns the full
population with a new leading axis (shape `(1, n_pop, n_parm)`). -/
theorem claim3_amended (draw : Draw) (g : GlobalRng) (f : List ℚ → ℚ)
    (bounds : List (ℚ × ℚ)) (npop ngen : Nat) (F C : ℚ) (seed : Nat) (verbose : Bool) :
    (DiffEvol.init draw g f bounds npop ngen F C seed verbose).1.result.minidx = none ∧
    (DiffEvol.init draw g f bounds npop ngen F C seed verbose).1.result.get_fitness
      = NpVal.arr2 [List.replicate npop 0] ∧
    (DiffEvol.init draw g f bounds npop ngen F C seed verbose).1.result.get_best_fit
      = NpVal.arr3 [(DiffEvol.init draw g f bounds npop ngen F C seed verbose).1.result.population] :=
  ⟨rfl, rfl, rfl⟩

/-- Claim C5: determinism.  A complete execution (construct, which calls
`np.random.seed(seed)`, then run) is bit-for-bit independent of the global
random stream state it starts from: construction seeds the single global
stream, and every random quantity — the initial population sampling, the
donor index draws, the crossover mask and the forced-crossing index — is
drawn from that stream in the fixed program order.  Hence two independent
construct-and-run executions with the same seed, bounds, `F`, `C`, `n_pop`,
`n_gen` and objective function produce identical outcomes: identical final
populations and identical final fitness vectors. -/
theorem claim5_determinism (draw : Draw) (g g' : GlobalRng) (f : List ℚ → ℚ)
    (bounds : List (ℚ × ℚ)) (npop ngen : Nat) (F C : ℚ) (seed : Nat) (verbose : Bool)
    (fuel : Nat) :
    constructAndRun draw g f bounds npop ngen F C seed verbose fuel
      = constructAndRun draw g' f bounds npop ngen F C seed verbose fuel := rfl

/-- A rejection-sampling loop whose guard rejects every drawable value never
returns, whatever its fuel. -/
theorem sampleUntil_none_of_unsat (accept : Nat → Bool) (next : Nat → Nat)
    (h : ∀ p, accept (next p) = false) :
    ∀ fuel pos, sampleUntil accept next pos fuel = none := by
  intro fuel
  induction fuel with
  | zero => intro pos; rfl
  | succ n ih =>
    intro pos
    unfold sampleUntil
    rw [h pos]
    simp only [Bool.false_eq_true, if_false]
    exact ih (pos + 1)

/-- A value returned by a rejection-sampling loop was drawn from the stream
and passes the guard. -/
theorem sampleUntil_some (accept : Nat → Bool) (next : Nat → Nat) :
    ∀ fuel pos v pos', sampleUntil accept next pos fuel = some (v, pos') →
      accept v = true ∧ ∃ p, v = next p := by
  intro fuel
  induction fuel with
  | zero => intro pos v pos' h; simp [sampleUntil] at h
  | succ n ih =>
    intro pos v pos' h
    unfold sampleUntil at h
    by_cases hacc : accept (next pos)
    · rw [if_pos hacc] at h
      simp only [Option.some.injEq, Prod.mk.injEq] at h
      exact ⟨h.1 ▸ hacc, pos, h.1.symm⟩
    · rw [if_neg hacc] at h
      exact ih (pos + 1) v pos' h

/-- For a target index of 0 and a population of size at most 3, the three
donor-selection loops cannot all succeed: the required four pairwise-distinct
indices do not exist below `npop`, so one of the rejection loops rejects every
drawable value and the selection exhausts any fuel. -/
theorem selectDonors_none_of_small (draw : Draw) (s npop : Nat) (h1 : 1 ≤ npop)
    (h3 : npop ≤ 3) (pos fuel : Nat) :
    selectDonors (fun p => randInt draw s p npop) 0 pos fuel = none := by
  set next : Nat → Nat := fun p => randInt draw s p npop with hnext
  have hlt : ∀ p, next p < npop := fun p => Nat.mod_lt _ (by omega)
  rcases h0 : sampleUntil (fun v => v != 0) next pos fuel with _ | ⟨t0, pos1⟩
  · simp [selectDonors, h0]
  · obtain ⟨ha0, p0, hp0⟩ := sampleUntil_some _ _ _ _ _ _ h0
    have ht0 : t0 ≠ 0 := by simpa using ha0
    have ht0lt : t0 < npop := hp0 ▸ hlt p0
    rcases h1' : sampleUntil (fun v => v != 0 && v != t0) next pos1 fuel with _ | ⟨t1, pos2⟩
    · simp [selectDonors, h0, h1']
    · obtain ⟨ha1, p1, hp1⟩ := sampleUntil_some _ _ _ _ _ _ h1'
      have ht1 : t1 ≠ 0 ∧ t1 ≠ t0 := by simpa using ha1
      have ht1lt : t1 < npop := hp1 ▸ hlt p1
      have h2none : sampleUntil (fun v => v != 0 && v != t0 && v != t1) next pos2 fuel
          = none := by
        apply sampleUntil_none_of_unsat
        intro p
        have hplt := hlt p
        have hcase : next p = 0 ∨ next p = t0 ∨ next p = t1 := by omega
        rcases hcase with h | h | h <;> simp [h]
      simp [selectDonors, h0, h1', h2none]

/-- Reduction of an Option bind on an absent value. -/
theorem obind_none {a : Type} {b : Type} (f : a → Option b) :
    (none : Option a).bind f = none := rfl

/-- Unfolding of a monadic left fold over Option on a cons cell. -/
theorem foldlM_cons_opt {a : Type} {b : Type} (f : b → a → Option b) (init : b)
    (x : a) (l : List a) :
    List.foldlM f init (x :: l) = (f init x).bind fun s => List.foldlM f s l := rfl

/-- An inner step whose donor selection exhausts its fuel propagates the
failure. -/
theorem innerStep_none (draw : Draw) (s : Nat) (f : List ℚ → ℚ) (npop nparm : Nat)
    (F C : ℚ) (fuel : Nat) (st : LoopState) (i : Nat)
    (h : selectDonors (fun p => randInt draw s p npop) i st.pos fuel = none) :
    innerStep draw s f npop nparm F C fuel st i = none := by
  unfold innerStep
  rw [h]

/-- A generation sweep over a nonempty population whose first inner step fails
fails as a whole. -/
theorem sweepGen_none (draw : Draw) (s : Nat) (f : List ℚ → ℚ) (m nparm : Nat)
    (F C : ℚ) (fuel : Nat) (st : LoopState)
    (h : innerStep draw s f (m + 1) nparm F C fuel st 0 = none) :
    sweepGen draw s f (m + 1) nparm F C fuel st = none := by
  unfold sweepGen
  rw [List.range_succ_eq_map, foldlM_cons_opt, h, obind_none]

/-- The generation loop diverges as soon as one sweep diverges. -/
theorem genLoop_diverges (draw : Draw) (s : Nat) (f : List ℚ → ℚ) (npop nparm : Nat)
    (F C : ℚ) (verbose : Bool) (fuel k : Nat) (st : LoopState)
    (h : sweepGen draw s f npop nparm F C fuel st = none) :
    genLoop draw s f npop nparm F C verbose fuel (k + 1) st = RunOutcome.diverges := by
  unfold genLoop
  rw [h]

/-- Claim C4: for every construction with `1 <= n_pop <= 3` — which the code
accepts without raising — and at least one generation, invoking the engine
never terminates: with target index 0 in the first inner-loop iteration, the
four pairwise-distinct indices required by the donor selection do not exist
in `{0, ..., n_pop - 1}`, so one of the three rejection-sampling `while`
loops redraws forever, for every possible random stream (every `draw`
function) — the run returns `diverges` at every fuel. -/
theorem claim4_diverges (draw : Draw) (g : GlobalRng) (f : List ℚ → ℚ)
    (bounds : List (ℚ × ℚ)) (npop ngen : Nat) (F C : ℚ) (seed : Nat) (verbose : Bool)
    (fuel : Nat) (h1 : 1 ≤ npop) (h2 : npop ≤ 3) (h3 : 1 ≤ ngen) :
    constructAndRun draw g f bounds npop ngen F C seed verbose fuel
      = RunOutcome.diverges := by
  obtain ⟨m, rfl⟩ : ∃ m, npop = m + 1 := ⟨npop - 1, by omega⟩
  obtain ⟨k, rfl⟩ : ∃ k, ngen = k + 1 := ⟨ngen - 1, by omega⟩
  have hrun : constructAndRun draw g f bounds (m + 1) (k + 1) F C seed verbose fuel
      = genLoop draw seed f (m + 1) bounds.length F C verbose fuel (k + 1)
          { pop := (DiffEvol.init draw g f bounds (m + 1) (k + 1) F C seed verbose).1.result.population,
            fit := (List.range (m + 1)).map fun i =>
              f ((DiffEvol.init draw g f bounds (m + 1) (k + 1) F C seed verbose).1.result.population.getD i []),
            pos := 0 + (m + 1) * bounds.length,
            trace := (List.range (m + 1)).map fun i =>
              (DiffEvol.init draw g f bounds (m + 1) (k + 1) F C seed verbose).1.result.population.getD i [] } := by
    show DiffEvol.call draw _ _ fuel = _
    rfl
  rw [hrun]
  exact genLoop_diverges _ _ _ _ _ _ _ _ _ _ _
    (sweepGen_none _ _ _ _ _ _ _ _ _
      (innerStep_none _ _ _ _ _ _ _ _ _ _
        (selectDonors_none_of_small draw seed (m + 1) (by omega) h2 _ fuel)))

/-- Claim C4, witness: the concrete engine with `n_pop = 3`, `n_gen = 1` on
the identity stream diverges at fuel 5. -/
theorem claim4_diverges_witness :
    constructAndRun drawId (0, 0) fQuad bounds01 3 1 (1/2) (1/2) 0 false 5
      = RunOutcome.diverges :=
  claim4_diverges drawId (0, 0) fQuad bounds01 3 1 (1/2) (1/2) 0 false 5
    (by decide) (by decide) (by decide)

/-- A concrete stream that always draws the raw word 0. -/
def drawZero : Draw := fun _ _ => 0

/-- Claim C4, counterexample to the claim exactly as stated: a construction
with `n_pop = 3` (accepted without raising) but `n_gen = 0` terminates — the
generation loop body never runs, so no rejection-sampling loop is reached and
the engine returns the store.  The claim's universal non-termination
statement therefore needs the proviso `n_gen >= 1`. -/
theorem claim4_counterexample :
    (constructAndRun drawZero (0, 0) fQuad bounds01 3 0 (1/2) (1/2) 0 true 1).isDone
      = true ∧
    (constructAndRun drawZero (0, 0) fQuad bounds01 3 0 (1/2) (1/2) 0 true 1).resultOf.population.length
      = 3 :=
  ⟨rfl, rfl⟩

/-- The numpy uniform float model always lies in `[0, 1)`. -/
theorem uniFloat_mem (draw : Draw) (s p : Nat) :
    0 ≤ uniFloat draw s p ∧ uniFloat draw s p < 1 := by
  unfold uniFloat
  constructor
  · positivity
  · rw [div_lt_one (by positivity)]
    have h : draw s p % 2 ^ 53 < 2 ^ 53 := Nat.mod_lt _ (by positivity)
    calc ((draw s p % 2 ^ 53 : Nat) : ℚ) < ((2 ^ 53 : Nat) : ℚ) := by
          exact_mod_cast h
      _ = (2 ^ 53 : ℚ) := by norm_num

/-- Entry `(i, j)` of the freshly sampled population, in closed form. -/
theorem initStore_entry (draw : Draw) (s pos npop npar : Nat) (bl bw : List ℚ)
    (i j : Nat) (hi : i < npop) (hj : j < npar) :
    ((DiffEvolResult.initStore draw s pos npop npar bl bw).population.getD i []).getD j 0
      = bl.getD j 0 + uniFloat draw s (pos + (i * npar + j)) * bw.getD j 0 := by
  unfold DiffEvolResult.initStore
  simp [List.getD, List.getElem?_map, List.getElem?_range, hi, hj]

/-- Claim C8: every component of every individual of the freshly initialized
population lies within its parameter's half-open bound `[lower, upper)`, and
each entry is computed as `lower + U * (upper - lower)` with `U` the
corresponding uniform draw in `[0, 1)` from the seeded stream (the draw at
stream position `i * n_parm + j`, row-major). -/
theorem claim8_init_bounds (draw : Draw) (g : GlobalRng) (f : List ℚ → ℚ)
    (bounds : List (ℚ × ℚ)) (npop ngen : Nat) (F C : ℚ) (seed : Nat) (verbose : Bool)
    (i j : Nat) (hi : i < npop) (hj : j < bounds.length)
    (hb : (bounds.getD j (0, 0)).1 < (bounds.getD j (0, 0)).2) :
    (bounds.getD j (0, 0)).1
        ≤ (((DiffEvol.init draw g f bounds npop ngen F C seed verbose).1.result.population.getD i []).getD j 0) ∧
    (((DiffEvol.init draw g f bounds npop ngen F C seed verbose).1.result.population.getD i []).getD j 0)
        < (bounds.getD j (0, 0)).2 ∧
    (((DiffEvol.init draw g f bounds npop ngen F C seed verbose).1.result.population.getD i []).getD j 0)
        = (bounds.getD j (0, 0)).1
          + uniFloat draw seed (i * bounds.length + j)
            * ((bounds.getD j (0, 0)).2 - (bounds.getD j (0, 0)).1) := by
  have hentry : ((DiffEvol.init draw g f bounds npop ngen F C seed verbose).1.result.population.getD i []).getD j 0
      = (bounds.map Prod.fst).getD j 0
        + uniFloat draw seed (0 + (i * bounds.length + j))
          * (bounds.map fun b => b.2 - b.1).getD j 0 := by
    show ((DiffEvolResult.initStore draw seed 0 npop bounds.length (bounds.map Prod.fst)
        (bounds.map fun b => b.2 - b.1)).population.getD i []).getD j 0 = _
    exact initStore_entry draw seed 0 npop bounds.length _ _ i j hi hj
  have hbl : (bounds.map Prod.fst).getD j 0 = (bounds.getD j (0, 0)).1 := by
    simp [List.getD, List.getElem?_map, List.getElem?_eq_getElem hj]
  have hbw : (bounds.map fun b => b.2 - b.1).getD j 0
      = (bounds.getD j (0, 0)).2 - (bounds.getD j (0, 0)).1 := by
    simp [List.getD, List.getElem?_map, List.getElem?_eq_getElem hj]
  rw [hentry, hbl, hbw, Nat.zero_add]
  obtain ⟨hu0, hu1⟩ := uniFloat_mem draw seed (i * bounds.length + j)
  set u := uniFloat draw seed (i * bounds.length + j)
  set lo := (bounds.getD j (0, 0)).1
  set hi' := (bounds.getD j (0, 0)).2
  have hw : 0 < hi' - lo := by linarith
  refine ⟨by nlinarith, by nlinarith, rfl⟩

/-- Claim C8, witness: the first component of the first individual of the
table engine's population, bound pair `(0, 1)`. -/
theorem claim8_init_bounds_witness :
    (bounds01.getD 0 (0, 0)).1
        ≤ (((DiffEvol.init tableDraw (0, 0) fQuad bounds01 4 1 (1/2) (1/2) 0 false).1.result.population.getD 0 []).getD 0 0) ∧
    (((DiffEvol.init tableDraw (0, 0) fQuad bounds01 4 1 (1/2) (1/2) 0 false).1.result.population.getD 0 []).getD 0 0)
        < (bounds01.getD 0 (0, 0)).2 ∧
    (((DiffEvol.init tableDraw (0, 0) fQuad bounds01 4 1 (1/2) (1/2) 0 false).1.result.population.getD 0 []).getD 0 0)
        = (bounds01.getD 0 (0, 0)).1
          + uniFloat tableDraw 0 (0 * bounds01.length + 0)
            * ((bounds01.getD 0 (0, 0)).2 - (bounds01.getD 0 (0, 0)).1) :=
  claim8_init_bounds tableDraw (0, 0) fQuad bounds01 4 1 (1/2) (1/2) 0 false 0 0
    (by decide) (by decide) (by norm_num [bounds01])

/-- Reading an updated list at the updated (in-range) index gives the new
value. -/
theorem getD_set_self {a : Type} (l : List a) : ∀ (i : Nat) (x d : a), i < l.length →
    (l.set i x).getD i d = x := by
  induction l with
  | nil => intro i x d h; simp at h
  | cons y ys ih =>
    intro i x d h
    cases i with
    | zero => rfl
    | succ k => exact ih k x d (by simpa using h)

/-- Reading an updated list away from the updated index gives the old
value. -/
theorem getD_set_ne {a : Type} (l : List a) : ∀ (i k : Nat) (x d : a), k ≠ i →
    (l.set i x).getD k d = l.getD k d := by
  induction l with
  | nil => intro i k x d _; simp [List.set]
  | cons y ys ih =>
    intro i k x d h
    cases i with
    | zero =>
      cases k with
      | zero => exact absurd rfl h
      | succ m => rfl
    | succ n =>
      cases k with
      | zero => rfl
      | succ m => exact ih n m x d (by omega)

/-- Reading the row-major sample grid of `List.range` under `map`. -/
theorem getD_map_range {a : Type} (f : Nat → a) (n j : Nat) (d : a) (h : j < n) :
    ((List.range n).map f).getD j d = f j := by
  simp [List.getD, List.getElem?_map, List.getElem?_range, h]

/-- Claim C10: in every crossover step the trial vector `u` is built by
taking, for each parameter component `j` independently, the mutant value
`v[j]` when the drawn float is at most `C` and the target value `x[j] =
pop[i][j]` otherwise; afterwards one index `ri`, drawn uniformly from
`0..n_parm`, is unconditionally overwritten with `v[ri]` — so the trial
vector always carries at least one component taken directly from `v`, has
exactly `n_parm` components, and `ri` is in range. -/
theorem claim10_crossover (draw : Draw) (s : Nat) (C : ℚ) (nparm : Nat)
    (v x : List ℚ) (pos j : Nat) (hn : 0 < nparm) (hj : j < nparm) :
    (buildTrial draw s C nparm v x pos).2.1 < nparm ∧
    (buildTrial draw s C nparm v x pos).1.length = nparm ∧
    (buildTrial draw s C nparm v x pos).1.getD (buildTrial draw s C nparm v x pos).2.1 0
      = v.getD (buildTrial draw s C nparm v x pos).2.1 0 ∧
    (j ≠ (buildTrial draw s C nparm v x pos).2.1 →
      (buildTrial draw s C nparm v x pos).1.getD j 0
        = if uniFloat draw s (pos + j) ≤ C then v.getD j 0 else x.getD j 0) := by
  have hri : randInt draw s (pos + nparm) nparm < nparm := Nat.mod_lt _ hn
  have hb1 : (buildTrial draw s C nparm v x pos).2.1
      = randInt draw s (pos + nparm) nparm := rfl
  have hb0 : (buildTrial draw s C nparm v x pos).1
      = ((List.range nparm).map fun k =>
          if uniFloat draw s (pos + k) ≤ C then v.getD k 0 else x.getD k 0).set
        (randInt draw s (pos + nparm) nparm)
        (v.getD (randInt draw s (pos + nparm) nparm) 0) := rfl
  rw [hb0, hb1]
  have hlen : ((List.range nparm).map fun k =>
      if uniFloat draw s (pos + k) ≤ C then v.getD k 0 else x.getD k 0).length = nparm := by
    simp
  refine ⟨hri, by simp, ?_, ?_⟩
  · rw [getD_set_self _ _ _ _ (by rw [hlen]; exact hri)]
  · intro hne
    rw [getD_set_ne _ _ _ _ _ hne, getD_map_range _ _ _ _ hj]

/-- Claim C10, witness: one parameter, mutant `[2]`, target `[5]`, the
all-zero stream: the forced index is 0 and the trial's component 0 is the
mutant's. -/
theorem claim10_crossover_witness :
    (buildTrial drawZero 0 (1/2) 1 [2] [5] 0).2.1 < 1 ∧
    (buildTrial drawZero 0 (1/2) 1 [2] [5] 0).1.length = 1 ∧
    (buildTrial drawZero 0 (1/2) 1 [2] [5] 0).1.getD (buildTrial drawZero 0 (1/2) 1 [2] [5] 0).2.1 0
      = ([2] : List ℚ).getD (buildTrial drawZero 0 (1/2) 1 [2] [5] 0).2.1 0 ∧
    (0 ≠ (buildTrial drawZero 0 (1/2) 1 [2] [5] 0).2.1 →
      (buildTrial drawZero 0 (1/2) 1 [2] [5] 0).1.getD 0 0
        = if uniFloat drawZero 0 (0 + 0) ≤ 1/2 then ([2] : List ℚ).getD 0 0
          else ([5] : List ℚ).getD 0 0) :=
  claim10_crossover drawZero 0 (1/2) 1 [2] [5] 0 0 (by decide) (by decide)

/-- A rejection-sampling loop's success is stable under extra fuel. -/
theorem sampleUntil_mono (accept : Nat → Bool) (next : Nat → Nat) :
    ∀ fuel pos r, sampleUntil accept next pos fuel = some r →
      sampleUntil accept next pos (fuel + 1) = some r := by
  intro fuel
  induction fuel with
  | zero => intro pos r h; simp [sampleUntil] at h
  | succ n ih =>
    intro pos r h
    unfold sampleUntil at h ⊢
    by_cases hacc : accept (next pos)
    · rw [if_pos hacc] at h ⊢; exact h
    · rw [if_neg hacc] at h ⊢; exact ih _ _ h

/-- A rejection-sampling loop's success is stable under any larger fuel. -/
theorem sampleUntil_mono_le (accept : Nat → Bool) (next : Nat → Nat) {f F : Nat}
    (hle : f ≤ F) (pos : Nat) (r : Nat × Nat)
    (h : sampleUntil accept next pos f = some r) :
    sampleUntil accept next pos F = some r := by
  induction F, hle using Nat.le_induction with
  | base => exact h
  | succ n _ ih => exact sampleUntil_mono accept next n pos r ih

/-- If some draw at or beyond the start position is acceptable, the
rejection-sampling loop succeeds with enough fuel. -/
theorem sampleUntil_terminates (accept : Nat → Bool) (next : Nat → Nat) :
    ∀ (d pos m : Nat), m = pos + d → accept (next m) = true →
      ∃ fuel v pos', sampleUntil accept next pos fuel = some (v, pos') := by
  intro d
  induction d with
  | zero =>
    intro pos m hm hacc
    refine ⟨1, next pos, pos + 1, ?_⟩
    unfold sampleUntil
    rw [if_pos (by rw [show pos = m by omega]; exact hacc)]
  | succ n ih =>
    intro pos m hm hacc
    by_cases h : accept (next pos)
    · refine ⟨1, next pos, pos + 1, ?_⟩
      unfold sampleUntil
      rw [if_pos h]
    · obtain ⟨fuel, v, pos', hs⟩ := ih (pos + 1) m (by omega) hacc
      refine ⟨fuel + 1, v, pos', ?_⟩
      unfold sampleUntil
      rw [if_neg h]
      exact hs

/-- Any successful donor selection yields three indices below `npop` that are
pairwise distinct and distinct from the target. -/
theorem selectDonors_some_inv (next : Nat → Nat) (npop : Nat)
    (hnext : ∀ p, next p < npop) (i pos fuel t0 t1 t2 pos' : Nat)
    (h : selectDonors next i pos fuel = some (t0, t1, t2, pos')) :
    t0 < npop ∧ t1 < npop ∧ t2 < npop ∧
    t0 ≠ i ∧ t1 ≠ i ∧ t2 ≠ i ∧ t1 ≠ t0 ∧ t2 ≠ t0 ∧ t2 ≠ t1 := by
  unfold selectDonors at h
  rcases h0 : sampleUntil (fun v => v != i) next pos fuel with _ | ⟨a0, q1⟩
  · simp only [h0] at h
    exact Option.noConfusion h
  · simp only [h0] at h
    rcases h1 : sampleUntil (fun v => v != i && v != a0) next q1 fuel with _ | ⟨a1, q2⟩
    · simp only [h1] at h
      exact Option.noConfusion h
    · simp only [h1] at h
      rcases h2 : sampleUntil (fun v => v != i && v != a0 && v != a1) next q2 fuel
          with _ | ⟨a2, q3⟩
      · simp only [h2] at h
        exact Option.noConfusion h
      · simp only [h2, Option.some.injEq, Prod.mk.injEq] at h
        obtain ⟨h10, h11, h12, h13⟩ := h
        subst h10
        subst h11
        subst h12
        subst h13
        obtain ⟨hb0, p0, hp0⟩ := sampleUntil_some _ _ _ _ _ _ h0
        obtain ⟨hb1, p1, hp1⟩ := sampleUntil_some _ _ _ _ _ _ h1
        obtain ⟨hb2, p2, hp2⟩ := sampleUntil_some _ _ _ _ _ _ h2
        have e0 : a0 ≠ i := by simpa using hb0
        have e1 : a1 ≠ i ∧ a1 ≠ a0 := by simpa using hb1
        have e2 : (a2 ≠ i ∧ a2 ≠ a0) ∧ a2 ≠ a1 := by simpa using hb2
        exact ⟨hp0 ▸ hnext p0, hp1 ▸ hnext p1, hp2 ▸ hnext p2,
          e0, e1.1, e2.1.1, e1.2, e2.1.2, e2.2⟩

/-- Claim C9: for every mutation step with target `i < n_pop` and `n_pop >=
4`, under any random stream that is fair (every residue below `n_pop` keeps
occurring), the rejection-sampling donor selection terminates — some fuel
suffices — and every successful selection produces three donor indices that,
together with the target, are four pairwise-distinct values in
`{0, ..., n_pop - 1}`. -/
theorem claim9_donor_selection (draw : Draw) (s npop i pos : Nat)
    (h4 : 4 ≤ npop) (hi : i < npop)
    (hfair : ∀ k v, v < npop → ∃ m, k ≤ m ∧ randInt draw s m npop = v) :
    ∃ fuel t0 t1 t2 pos',
      selectDonors (fun p => randInt draw s p npop) i pos fuel = some (t0, t1, t2, pos') ∧
      ∀ fuel2 u0 u1 u2 q,
        selectDonors (fun p => randInt draw s p npop) i pos fuel2 = some (u0, u1, u2, q) →
        u0 < npop ∧ u1 < npop ∧ u2 < npop ∧
        u0 ≠ i ∧ u1 ≠ i ∧ u2 ≠ i ∧ u1 ≠ u0 ∧ u2 ≠ u0 ∧ u2 ≠ u1 := by
  set next : Nat → Nat := fun p => randInt draw s p npop with hnextdef
  have hnext : ∀ p, next p < npop := fun p => Nat.mod_lt _ (by omega)
  obtain ⟨v0, hv0lt, hv0ne⟩ : ∃ v0, v0 < npop ∧ v0 ≠ i := by
    by_cases h : i = 0
    · exact ⟨1, by omega, by omega⟩
    · exact ⟨0, by omega, by omega⟩
  obtain ⟨m0, hm0ge, hm0⟩ := hfair pos v0 hv0lt
  obtain ⟨f0, t0, pos1, hs0⟩ := sampleUntil_terminates (fun v => v != i) next
    (m0 - pos) pos m0 (by omega) (by simp [hnextdef, hm0, hv0ne])
  obtain ⟨hb0, p0, hp0⟩ := sampleUntil_some _ _ _ _ _ _ hs0
  have ht0i : t0 ≠ i := by simpa using hb0
  have ht0lt : t0 < npop := hp0 ▸ hnext p0
  obtain ⟨v1, hv1lt, hv1i, hv1t0⟩ : ∃ v1, v1 < npop ∧ v1 ≠ i ∧ v1 ≠ t0 := by
    refine ⟨if 0 ≠ i ∧ 0 ≠ t0 then 0 else if 1 ≠ i ∧ 1 ≠ t0 then 1 else 2, ?_⟩
    split_ifs <;> omega
  obtain ⟨m1, hm1ge, hm1⟩ := hfair pos1 v1 hv1lt
  obtain ⟨f1, t1, pos2, hs1⟩ := sampleUntil_terminates (fun v => v != i && v != t0) next
    (m1 - pos1) pos1 m1 (by omega) (by simp [hnextdef, hm1, hv1i, hv1t0])
  obtain ⟨hb1, p1, hp1⟩ := sampleUntil_some _ _ _ _ _ _ hs1
  have ht1 : t1 ≠ i ∧ t1 ≠ t0 := by simpa using hb1
  obtain ⟨v2, hv2lt, hv2i, hv2t0, hv2t1⟩ :
      ∃ v2, v2 < npop ∧ v2 ≠ i ∧ v2 ≠ t0 ∧ v2 ≠ t1 := by
    refine ⟨if 0 ≠ i ∧ 0 ≠ t0 ∧ 0 ≠ t1 then 0
      else if 1 ≠ i ∧ 1 ≠ t0 ∧ 1 ≠ t1 then 1
      else if 2 ≠ i ∧ 2 ≠ t0 ∧ 2 ≠ t1 then 2 else 3, ?_⟩
    split_ifs <;> omega
  obtain ⟨m2, hm2ge, hm2⟩ := hfair pos2 v2 hv2lt
  obtain ⟨f2, t2, pos3, hs2⟩ := sampleUntil_terminates
    (fun v => v != i && v != t0 && v != t1) next
    (m2 - pos2) pos2 m2 (by omega) (by simp [hnextdef, hm2, hv2i, hv2t0, hv2t1])
  refine ⟨max f0 (max f1 f2), t0, t1, t2, pos3, ?_, ?_⟩
  · have hs0' := sampleUntil_mono_le _ next (Nat.le_max_left f0 (max f1 f2)) _ _ hs0
    have hs1' := sampleUntil_mono_le _ next
      (le_trans (Nat.le_max_left f1 f2) (Nat.le_max_right f0 (max f1 f2))) _ _ hs1
    have hs2' := sampleUntil_mono_le _ next
      (le_trans (Nat.le_max_right f1 f2) (Nat.le_max_right f0 (max f1 f2))) _ _ hs2
    simp [selectDonors, hs0', hs1', hs2']
  · intro fuel2 u0 u1 u2 q h
    exact selectDonors_some_inv next npop hnext i pos fuel2 u0 u1 u2 q h

/-- Claim C9, witness: `n_pop = 4`, target 0, the identity stream (which is
fair: position `4 * (k / 4 + 1) + v` is at or beyond `k` and draws `v`). -/
theorem claim9_donor_selection_witness :
    ∃ fuel t0 t1 t2 pos',
      selectDonors (fun p => randInt drawId 0 p 4) 0 0 fuel = some (t0, t1, t2, pos') ∧
      ∀ fuel2 u0 u1 u2 q,
        selectDonors (fun p => randInt drawId 0 p 4) 0 0 fuel2 = some (u0, u1, u2, q) →
        u0 < 4 ∧ u1 < 4 ∧ u2 < 4 ∧
        u0 ≠ 0 ∧ u1 ≠ 0 ∧ u2 ≠ 0 ∧ u1 ≠ u0 ∧ u2 ≠ u0 ∧ u2 ≠ u1 :=
  claim9_donor_selection drawId 0 4 0 0 (by decide) (by decide)
    (fun k v hv => ⟨4 * (k / 4 + 1) + v, by omega,
      by
        show (4 * (k / 4 + 1) + v) % 4 = v
        rw [Nat.add_comm, Nat.add_mul_mod_self_left]
        exact Nat.mod_eq_of_lt hv⟩)

/-- Updating a list at an out-of-range index is a no-op. -/
theorem set_oob {a : Type} (l : List a) : ∀ (i : Nat) (x : a), l.length ≤ i →
    l.set i x = l := by
  induction l with
  | nil => intro i x _; rfl
  | cons y ys ih =>
    intro i x h
    cases i with
    | zero => simp at h
    | succ k => simp [List.set, ih k x (by simpa using h)]

/-- Reduction of a monadic left fold over Option on the empty list. -/
theorem foldlM_nil_opt {a : Type} {b : Type} (f : b → a → Option b) (init : b) :
    List.foldlM f init ([] : List a) = some init := rfl

/-- What one successful inner step does to the state: either the trial was
rejected and population and fitness are both untouched, or it was strictly
better than `fit[i]` and row `i` and `fit[i]` are replaced together, by the
trial `u` and its objective value `f u`; in both cases `u` is appended to the
objective-call trace. -/
theorem innerStep_spec (draw : Draw) (s : Nat) (f : List ℚ → ℚ) (npop nparm : Nat)
    (F C : ℚ) (fuel : Nat) (st : LoopState) (i : Nat) (st' : LoopState)
    (h : innerStep draw s f npop nparm F C fuel st i = some st') :
    ((st'.pop = st.pop ∧ st'.fit = st.fit) ∨
      ∃ u, f u < st.fit.getD i 0 ∧ st'.pop = st.pop.set i u ∧ st'.fit = st.fit.set i (f u)) ∧
    ∃ u, st'.trace = st.trace ++ [u] := by
  unfold innerStep at h
  rcases hSD : selectDonors (fun p => randInt draw s p npop) i st.pos fuel
      with _ | ⟨t0, t1, t2, pos1⟩
  · simp only [hSD] at h
    exact Option.noConfusion h
  · simp only [hSD] at h
    split at h
    · simp only [Option.some.injEq] at h
      subst h
      exact ⟨Or.inr ⟨_, by assumption, rfl, rfl⟩, _, rfl⟩
    · simp only [Option.some.injEq] at h
      subst h
      exact ⟨Or.inl ⟨rfl, rfl⟩, _, rfl⟩

/-- One successful inner step preserves the lengths of the population and
fitness buffers. -/
theorem innerStep_lengths (draw : Draw) (s : Nat) (f : List ℚ → ℚ) (npop nparm : Nat)
    (F C : ℚ) (fuel : Nat) (st : LoopState) (i : Nat) (st' : LoopState)
    (h : innerStep draw s f npop nparm F C fuel st i = some st') :
    st'.pop.length = st.pop.length ∧ st'.fit.length = st.fit.length := by
  rcases (innerStep_spec draw s f npop nparm F C fuel st i st' h).1
      with ⟨hp, hf⟩ | ⟨u, _, hp, hf⟩
  · rw [hp, hf]
    exact ⟨rfl, rfl⟩
  · rw [hp, hf]
    simp

/-- Per-slot relation between two loop states: each slot is either untouched
(row and fitness both) or carries a strictly better committed trial whose
fitness is exactly the objective value of its row. -/
def SlotOk (f : List ℚ → ℚ) (st st' : LoopState) : Prop :=
  ∀ k, (st'.pop.getD k [] = st.pop.getD k [] ∧ st'.fit.getD k 0 = st.fit.getD k 0) ∨
       (st'.fit.getD k 0 = f (st'.pop.getD k []) ∧ st'.fit.getD k 0 < st.fit.getD k 0)

/-- The per-slot relation is reflexive. -/
theorem slotOk_refl (f : List ℚ → ℚ) (st : LoopState) : SlotOk f st st :=
  fun _ => Or.inl ⟨rfl, rfl⟩

/-- The per-slot relation is transitive. -/
theorem slotOk_trans (f : List ℚ → ℚ) (st st' st'' : LoopState)
    (h1 : SlotOk f st st') (h2 : SlotOk f st' st'') : SlotOk f st st'' := by
  intro k
  rcases h2 k with ⟨hp2, hf2⟩ | ⟨hs2, hl2⟩
  · rcases h1 k with ⟨hp1, hf1⟩ | ⟨hs1, hl1⟩
    · exact Or.inl ⟨hp2.trans hp1, hf2.trans hf1⟩
    · exact Or.inr ⟨by rw [hf2, hp2]; exact hs1, by rw [hf2]; exact hl1⟩
  · rcases h1 k with ⟨hp1, hf1⟩ | ⟨hs1, hl1⟩
    · exact Or.inr ⟨hs2, by rw [← hf1]; exact hl2⟩
    · exact Or.inr ⟨hs2, lt_trans hl2 hl1⟩

/-- One successful inner step satisfies the per-slot relation, provided the
two buffers have equal length. -/
theorem innerStep_slotOk (draw : Draw) (s : Nat) (f : List ℚ → ℚ) (npop nparm : Nat)
    (F C : ℚ) (fuel : Nat) (st : LoopState) (i : Nat) (st' : LoopState)
    (hlen : st.pop.length = st.fit.length)
    (h : innerStep draw s f npop nparm F C fuel st i = some st') : SlotOk f st st' := by
  rcases (innerStep_spec draw s f npop nparm F C fuel st i st' h).1
      with ⟨hp, hf⟩ | ⟨u, hlt, hp, hf⟩
  · intro k
    exact Or.inl ⟨by rw [hp], by rw [hf]⟩
  · intro k
    by_cases hk : k = i
    · subst hk
      by_cases hin : k < st.pop.length
      · refine Or.inr ⟨?_, ?_⟩
        · rw [hf, getD_set_self _ _ _ _ (hlen ▸ hin), hp, getD_set_self _ _ _ _ hin]
        · rw [hf, getD_set_self _ _ _ _ (hlen ▸ hin)]
          exact hlt
      · refine Or.inl ⟨?_, ?_⟩
        · rw [hp, set_oob _ _ _ (by omega)]
        · rw [hf, set_oob _ _ _ (by omega)]
    · exact Or.inl ⟨by rw [hp, getD_set_ne _ _ _ _ _ hk],
        by rw [hf, getD_set_ne _ _ _ _ _ hk]⟩

/-- Folding successful inner steps over any list of target indices produces a
state related to the start by the per-slot relation; lengths are
preserved. -/
theorem foldlM_slotOk (draw : Draw) (s : Nat) (f : List ℚ → ℚ) (npop nparm : Nat)
    (F C : ℚ) (fuel : Nat) :
    ∀ (l : List Nat) (st st' : LoopState),
      List.foldlM (innerStep draw s f npop nparm F C fuel) st l = some st' →
      st.pop.length = st.fit.length →
      SlotOk f st st' ∧ st'.pop.length = st'.fit.length := by
  intro l
  induction l with
  | nil =>
    intro st st' h hlen
    rw [foldlM_nil_opt] at h
    simp only [Option.some.injEq] at h
    subst h
    exact ⟨slotOk_refl f st, hlen⟩
  | cons a l ih =>
    intro st st' h hlen
    rw [foldlM_cons_opt] at h
    rcases hstep : innerStep draw s f npop nparm F C fuel st a with _ | st1
    · rw [hstep, obind_none] at h
      exact Option.noConfusion h
    · rw [hstep, obind_some] at h
      obtain ⟨hlp, hlf⟩ := innerStep_lengths draw s f npop nparm F C fuel st a st1 hstep
      have hlen1 : st1.pop.length = st1.fit.length := by rw [hlp, hlf]; exact hlen
      obtain ⟨hok, hlen'⟩ := ih st1 st' h hlen1
      exact ⟨slotOk_trans f st st1 st'
        (innerStep_slotOk draw s f npop nparm F C fuel st a st1 hlen hstep) hok, hlen'⟩

/-- Claim C7: elitism and atomic commits.  For every slot `k` and every
completed generation sweep (from a state with equally long population and
fitness buffers), `fit[k]` after the sweep is at most `fit[k]` before it, and
in fact the slot is either untouched — row and fitness both — or holds a
committed trial whose fitness is exactly the objective value of the stored
row and strictly below the old fitness.  Moreover every single inner step
either leaves population and fitness unchanged or replaces row `i` and
`fit[i]` together, by a trial `u` and its objective value `f u`, and only
when `f u` is strictly lower than `fit[i]`. -/
theorem claim7_elitism (draw : Draw) (s : Nat) (f : List ℚ → ℚ) (npop nparm : Nat)
    (F C : ℚ) (fuel : Nat) (st : LoopState) (k : Nat)
    (hlen : st.pop.length = st.fit.length)
    (hs : (sweepGen draw s f npop nparm F C fuel st).isSome = true) :
    ((sweepGen draw s f npop nparm F C fuel st).getD st).fit.getD k 0 ≤ st.fit.getD k 0 ∧
    ((((sweepGen draw s f npop nparm F C fuel st).getD st).pop.getD k [] = st.pop.getD k [] ∧
      ((sweepGen draw s f npop nparm F C fuel st).getD st).fit.getD k 0 = st.fit.getD k 0) ∨
     (((sweepGen draw s f npop nparm F C fuel st).getD st).fit.getD k 0
        = f (((sweepGen draw s f npop nparm F C fuel st).getD st).pop.getD k []) ∧
      ((sweepGen draw s f npop nparm F C fuel st).getD st).fit.getD k 0 < st.fit.getD k 0)) ∧
    (∀ (st2 st2' : LoopState) (i2 : Nat),
      innerStep draw s f npop nparm F C fuel st2 i2 = some st2' →
      ((st2'.pop = st2.pop ∧ st2'.fit = st2.fit) ∨
       ∃ u, f u < st2.fit.getD i2 0 ∧ st2'.pop = st2.pop.set i2 u ∧
         st2'.fit = st2.fit.set i2 (f u))) := by
  obtain ⟨st', hst'⟩ := Option.isSome_iff_exists.mp hs
  have hok : SlotOk f st st' :=
    (foldlM_slotOk draw s f npop nparm F C fuel (List.range npop) st st'
      (by rw [← hst']; rfl) hlen).1
  rw [hst']
  have hgetD : (some st').getD st = st' := rfl
  rw [hgetD]
  have hstep : ∀ (st2 st2' : LoopState) (i2 : Nat),
      innerStep draw s f npop nparm F C fuel st2 i2 = some st2' →
      ((st2'.pop = st2.pop ∧ st2'.fit = st2.fit) ∨
       ∃ u, f u < st2.fit.getD i2 0 ∧ st2'.pop = st2.pop.set i2 u ∧
         st2'.fit = st2.fit.set i2 (f u)) :=
    fun st2 st2' i2 h2 => (innerStep_spec draw s f npop nparm F C fuel st2 i2 st2' h2).1
  rcases hok k with ⟨hp, hf⟩ | ⟨hsync, hlt⟩
  · exact ⟨le_of_eq hf, Or.inl ⟨hp, hf⟩, hstep⟩
  · exact ⟨le_of_lt hlt, Or.inr ⟨hsync, hlt⟩, hstep⟩

/-- Claim C7, witness: the table run's first-generation sweep at slot 0
(which commits the strictly better trial 1/2). -/
theorem claim7_elitism_witness :
    ((sweepGen tableDraw 0 fQuad 4 1 (1/2) (1/2) 2 stT0).getD stT0).fit.getD 0 0
      ≤ stT0.fit.getD 0 0 ∧
    ((((sweepGen tableDraw 0 fQuad 4 1 (1/2) (1/2) 2 stT0).getD stT0).pop.getD 0 []
        = stT0.pop.getD 0 [] ∧
      ((sweepGen tableDraw 0 fQuad 4 1 (1/2) (1/2) 2 stT0).getD stT0).fit.getD 0 0
        = stT0.fit.getD 0 0) ∨
     (((sweepGen tableDraw 0 fQuad 4 1 (1/2) (1/2) 2 stT0).getD stT0).fit.getD 0 0
        = fQuad (((sweepGen tableDraw 0 fQuad 4 1 (1/2) (1/2) 2 stT0).getD stT0).pop.getD 0 []) ∧
      ((sweepGen tableDraw 0 fQuad 4 1 (1/2) (1/2) 2 stT0).getD stT0).fit.getD 0 0
        < stT0.fit.getD 0 0)) ∧
    (∀ (st2 st2' : LoopState) (i2 : Nat),
      innerStep tableDraw 0 fQuad 4 1 (1/2) (1/2) 2 st2 i2 = some st2' →
      ((st2'.pop = st2.pop ∧ st2'.fit = st2.fit) ∨
       ∃ u, fQuad u < st2.fit.getD i2 0 ∧ st2'.pop = st2.pop.set i2 u ∧
         st2'.fit = st2.fit.set i2 (fQuad u))) :=
  claim7_elitism tableDraw 0 fQuad 4 1 (1/2) (1/2) 2 stT0 0 rfl
    (by rw [sweepT]; rfl)

/-- A completed fold of inner steps appends exactly one objective-call trace
entry per target index processed. -/
theorem foldlM_trace (draw : Draw) (s : Nat) (f : List ℚ → ℚ) (npop nparm : Nat)
    (F C : ℚ) (fuel : Nat) :
    ∀ (l : List Nat) (st st' : LoopState),
      List.foldlM (innerStep draw s f npop nparm F C fuel) st l = some st' →
      ∃ e, st'.trace = st.trace ++ e ∧ e.length = l.length := by
  intro l
  induction l with
  | nil =>
    intro st st' h
    rw [foldlM_nil_opt] at h
    simp only [Option.some.injEq] at h
    subst h
    exact ⟨[], by simp, rfl⟩
  | cons a l ih =>
    intro st st' h
    rw [foldlM_cons_opt] at h
    rcases hstep : innerStep draw s f npop nparm F C fuel st a with _ | st1
    · rw [hstep, obind_none] at h
      exact Option.noConfusion h
    · rw [hstep, obind_some] at h
      obtain ⟨u, hu⟩ := (innerStep_spec draw s f npop nparm F C fuel st a st1 hstep).2
      obtain ⟨e, he, hlen⟩ := ih st1 st' h
      exact ⟨[u] ++ e, by rw [he, hu, List.append_assoc], by simp [hlen]⟩

/-- A completed generation loop appends exactly `n_pop` objective-call trace
entries per generation run. -/
theorem genLoop_trace (draw : Draw) (s : Nat) (f : List ℚ → ℚ) (npop nparm : Nat)
    (F C : ℚ) (verbose : Bool) (fuel : Nat) :
    ∀ (n : Nat) (st : LoopState) (r : DiffEvolResult) (tr : List (List ℚ)),
      genLoop draw s f npop nparm F C verbose fuel n st = RunOutcome.done r tr →
      ∃ e, tr = st.trace ++ e ∧ e.length = n * npop := by
  intro n
  induction n with
  | zero =>
    intro st r tr h
    unfold genLoop at h
    simp only [RunOutcome.done.injEq] at h
    exact ⟨[], by rw [← h.2]; simp, by simp⟩
  | succ k ih =>
    intro st r tr h
    unfold genLoop at h
    rcases hsw : sweepGen draw s f npop nparm F C fuel st with _ | st1
    · simp only [hsw] at h
      exact RunOutcome.noConfusion h
    · simp only [hsw] at h
      by_cases hv : verbose
      · rw [if_pos (by simp [hv])] at h
        exact RunOutcome.noConfusion h
      · rw [if_neg (by simp [hv])] at h
        obtain ⟨e2, htr, hlen2⟩ := ih st1 r tr h
        obtain ⟨e1, h1, hl1⟩ := foldlM_trace draw s f npop nparm F C fuel
          (List.range npop) st st1 (by rw [← hsw]; rfl)
        refine ⟨e1 ++ e2, by rw [htr, h1, List.append_assoc], ?_⟩
        rw [List.length_append, hl1, hlen2, List.length_range, Nat.succ_mul]
        omega

/-- Claim C6: reference evaluation order and in-place single-buffer
semantics.  Every completed run first evaluates the objective exactly once on
each of the `n_pop` initial individuals, in slot order — the first `n_pop`
objective-call arguments are exactly the initial population rows — and then
performs exactly `n_pop` further trial evaluations per generation while
sweeping `i` from 0 to `n_pop - 1` in place on the single population buffer;
in total `n_pop + n_gen * n_pop` objective calls.  The sweep is genuinely
in place: on the concrete table engine the run differs from the
double-buffered variant (in which donor draws never see rows updated earlier
in the same sweep) — slot 1's donor draw reads the row that slot 0 committed
moments before. -/
theorem claim6_eval_order (draw : Draw) (g : GlobalRng) (de : DiffEvol) (fuel : Nat)
    (hs : (DiffEvol.call draw g de fuel).isDone = true) :
    (DiffEvol.call draw g de fuel).traceOf.take de.n_pop
      = (List.range de.n_pop).map (fun i => de.result.population.getD i []) ∧
    (DiffEvol.call draw g de fuel).traceOf.length = de.n_pop + de.n_gen * de.n_pop ∧
    DiffEvol.call tableDraw gTable deTable 2 ≠ DiffEvol.callDB tableDraw gTable deTable 2 := by
  have hdiff : DiffEvol.call tableDraw gTable deTable 2
      ≠ DiffEvol.callDB tableDraw gTable deTable 2 := by
    rw [callT, callD]
    intro h
    have h34 : trT = trD := by
      have := RunOutcome.done.inj h
      exact this.2
    have : ([3/4] : List ℚ) = [1/4] := by
      have h4 := congrArg (fun l => l.getD 5 []) h34
      simpa [trT, trD, List.getD] using h4
    have : (3/4 : ℚ) = 1/4 := by
      have h5 := congrArg (fun l => l.getD 0 0) this
      simpa [List.getD] using h5
    norm_num at this
  rcases hcall : DiffEvol.call draw g de fuel with _ | _ | ⟨r, tr⟩
  · rw [hcall] at hs
    exact Bool.noConfusion hs
  · rw [hcall] at hs
    exact Bool.noConfusion hs
  · have hc : DiffEvol.call draw g de fuel
        = genLoop draw g.1 de.minfun de.n_pop de.n_parm de.F de.C de.verbose fuel de.n_gen
            { pop := de.result.population,
              fit := (List.range de.n_pop).map fun i =>
                de.minfun (de.result.population.getD i []),
              pos := g.2,
              trace := (List.range de.n_pop).map fun i =>
                de.result.population.getD i [] } := rfl
    obtain ⟨e, htr, hlen⟩ := genLoop_trace draw g.1 de.minfun de.n_pop de.n_parm de.F de.C
      de.verbose fuel de.n_gen _ r tr (by rw [← hc]; exact hcall)
    have htrace : (DiffEvol.call draw g de fuel).traceOf = tr := by rw [hcall]; rfl
    have hlenA : ((List.range de.n_pop).map fun i =>
        de.result.population.getD i []).length = de.n_pop := by simp
    refine ⟨?_, ?_, hdiff⟩
    · show tr.take de.n_pop = _
      rw [htr]
      show (((List.range de.n_pop).map fun i => de.result.population.getD i []) ++ e).take
          de.n_pop = _
      exact List.take_left' hlenA
    · show tr.length = _
      rw [htr]
      show (((List.range de.n_pop).map fun i => de.result.population.getD i []) ++ e).length
          = _
      rw [List.length_append, hlenA, hlen]

/-- Claim C6, witness: the completed table run — its first four objective
calls are the four initial individuals and it makes `4 + 1 * 4` calls in
total. -/
theorem claim6_eval_order_witness :
    (DiffEvol.call tableDraw gTable deTable 2).traceOf.take deTable.n_pop
      = (List.range deTable.n_pop).map (fun i => deTable.result.population.getD i []) ∧
    (DiffEvol.call tableDraw gTable deTable 2).traceOf.length
      = deTable.n_pop + deTable.n_gen * deTable.n_pop ∧
    DiffEvol.call tableDraw gTable deTable 2 ≠ DiffEvol.callDB tableDraw gTable deTable 2 :=
  claim6_eval_order tableDraw gTable deTable 2 (by rw [callT]; rfl)
